import Mathlib

/-!
Verification development for the PDF-search chatbot repository.

Text is modelled as `List Char` (Python `str`).  Pure functions of the
source (`intent_classifier.classify`, `rule_engine.apply_rules`,
`gemini_pdf_service._split_text_into_chunks`, `_match_pdfs_by_title`,
`_search_single_pdf`, `search_all_pdfs`, and the response templates) are
translated into Lean definitions.  Effects are made explicit:

* the uploads directory is a value (`World.dir`): `none` models a missing
  directory, `some entries` its listing, each entry carrying the result of
  text extraction (`Except` error message / extracted text), shallowly
  embedding the PyPDF2 + filesystem capability of `_read_pdf`;
* the external model (`genai` `generate_content`) is an opaque function
  from prompt to `Except` error / text (`World.model`), `Option`-wrapped
  exactly as the source keeps `self.model = None` without credentials;
* `search_all_pdfs` and `process_message` additionally return the trace of
  file names whose read/model examination was attempted (the source tracks
  the same list as `searched_pdf_names`), so that "file never read or
  queried" is a statement about the returned trace;
* Python exceptions caught by the source become `Except` values, and
  `random.choice` becomes an explicit chooser argument `pick`.
-/

/-- Python-style whitespace test: the characters that `str.strip` and the
regex class `\s` treat as whitespace (space, tab, newline, carriage return,
vertical tab, form feed). -/
def isPySpace (c : Char) : Bool :=
  decide (c.toNat = 32) || decide (c.toNat = 9) || decide (c.toNat = 10) ||
  decide (c.toNat = 13) || decide (c.toNat = 11) || decide (c.toNat = 12)

/-- Python `str.lower` on the ASCII range. -/
def lowerL (l : List Char) : List Char := l.map Char.toLower

/-- Python `str.upper` on the ASCII range. -/
def upperL (l : List Char) : List Char := l.map Char.toUpper

/-- Python `str.strip`: drop leading and trailing whitespace. -/
def trimL (l : List Char) : List Char :=
  ((l.dropWhile isPySpace).reverse.dropWhile isPySpace).reverse

/-- Does the first list start with the second (`str.startswith`)? -/
def startsWithL : List Char → List Char → Bool
  | _, [] => true
  | [], _ :: _ => false
  | a :: as, b :: bs => a == b && startsWithL as bs

/-- Python's substring test `needle in hay`. -/
def infixL (needle : List Char) : List Char → Bool
  | [] => needle.isEmpty
  | a :: as => startsWithL (a :: as) needle || infixL needle as

/-- Python `str.endswith`. -/
def endsWithL (l suffix : List Char) : Bool :=
  startsWithL l.reverse suffix.reverse

/-- Accumulator loop behind `wordsL`; splits on runs of whitespace. -/
def wordsLoop : List Char → List Char → List (List Char)
  | [], acc => if acc.isEmpty then [] else [acc.reverse]
  | c :: cs, acc =>
    if isPySpace c then
      if acc.isEmpty then wordsLoop cs [] else acc.reverse :: wordsLoop cs []
    else wordsLoop cs (c :: acc)

/-- Python `str.split()` with no separator: split on whitespace runs,
no empty words. -/
def wordsL (l : List Char) : List (List Char) := wordsLoop l []

/-- Python `.replace('.pdf', '')`: remove every occurrence of `.pdf`,
scanning left to right (source line 80 of `gemini_pdf_service.py`). -/
def removePdf : List Char → List Char
  | '.' :: 'p' :: 'd' :: 'f' :: rest => removePdf rest
  | c :: rest => c :: removePdf rest
  | [] => []

/-- Loop behind `basenameL`: restart the accumulator at every `/`. -/
def basenameGo (acc : List Char) : List Char → List Char
  | [] => acc.reverse
  | c :: cs => if c = '/' then basenameGo [] cs else basenameGo (c :: acc) cs

/-- `os.path.basename` for POSIX paths: everything after the last `/`. -/
def basenameL (p : List Char) : List Char := basenameGo [] p

/-- Python `.replace('_', ' ').replace('-', ' ')`. -/
def underscoreDashToSpace (l : List Char) : List Char :=
  l.map (fun c => if c = '_' || c = '-' then ' ' else c)

/-- Contiguous slice `t[a:b]` of a Python string (clamped like Python
slicing). -/
def sliceL (t : List Char) (a b : Nat) : List Char := (t.drop a).take (b - a)

/-- Helper for `rfindFromL`: index of the last occurrence of `c`, indices
offset by `i`. -/
def rlastGo (c : Char) : List Char → Nat → Option Nat
  | [], _ => none
  | a :: as, i =>
    match rlastGo c as (i + 1) with
    | some j => some j
    | none => if a == c then some i else none

/-- Python `s.rfind(c, lo)` (with `lo` already clamped to `[0, len s]`):
the greatest index `≥ lo` holding `c`, or `none` for Python's `-1`. -/
def rfindFromL (l : List Char) (c : Char) (lo : Nat) : Option Nat :=
  rlastGo c (l.drop lo) lo

/-- Join of two `rfind` results as in `max(last_period, last_newline)`
where `none` stands for Python's `-1`. -/
def maxOpt : Option Nat → Option Nat → Option Nat
  | none, b => b
  | some a, none => some a
  | some a, some b => some (max a b)

/-- The raw window `chunk = text[start:start + chunk_size]` of the
splitting loop (source line 116). -/
def chunkOf (t : List Char) (start cs : Nat) : List Char :=
  sliceL t start (start + cs)

/-- `break_point = max(chunk.rfind('.', -2000), chunk.rfind('\n', -2000))`
of the splitting loop (source lines 121-123); `none` is Python's `-1`. -/
def breakPt (t : List Char) (start cs : Nat) : Option Nat :=
  maxOpt (rfindFromL (chunkOf t start cs) '.' ((chunkOf t start cs).length - 2000))
    (rfindFromL (chunkOf t start cs) '\n' ((chunkOf t start cs).length - 2000))

/-- One iteration of the `while start < len(text)` loop of
`_split_text_into_chunks` (source lines 114-132), with the continuation
`recur` standing for the next iteration.  Note the source's quirk,
translated verbatim: `break_point` is an index inside the current chunk
but is compared against the absolute position `start + chunk_size // 2`
(source line 125). -/
def chunkStep (cs ov : Nat) (t : List Char)
    (recur : Nat → List (List Char)) (start : Nat) : List (List Char) :=
  if start < t.length then
    if start + cs < t.length then
      match breakPt t start cs with
      | some b =>
        if start + cs / 2 < b then
          (chunkOf t start cs).take (b + 1) :: recur (start + b + 1 - ov)
        else chunkOf t start cs :: recur (start + cs - ov)
      | none => chunkOf t start cs :: recur (start + cs - ov)
    else chunkOf t start cs :: recur (start + cs - ov)
  else []

/-- The splitting loop itself.  `fuel` bounds the number of iterations;
the callers pass `t.length`, which is enough whenever the loop makes
progress (in particular for the parameters the claims use,
`overlap < chunk_size` and `overlap < chunk_size / 2 + 2`). -/
def chunksGo (cs ov : Nat) (t : List Char) : Nat → Nat → List (List Char)
  | 0, _ => []
  | fuel + 1, start => chunkStep cs ov t (chunksGo cs ov t fuel) start

/-- `GeminiPDFService._split_text_into_chunks` (source lines 106-134). -/
def splitTextIntoChunks (t : List Char) (cs ov : Nat) : List (List Char) :=
  if t.length ≤ cs then [t] else chunksGo cs ov t t.length 0

/-- Inner `for fword in filename_words` / outer `for qword in query_words`
loops of `_match_pdfs_by_title` (source lines 95-98), accumulating 5 points
per ordered pair matching in either substring direction. -/
def pairBonus (qw fw : List (List Char)) (s : Nat) : Nat :=
  qw.foldl
    (fun acc q =>
      fw.foldl (fun acc2 f => if infixL q f || infixL f q then acc2 + 5 else acc2) acc)
    s

/-- Relevance score of one filename against the query, as computed inside
`_match_pdfs_by_title` (source lines 77-100).  Python `set`s of words are
modelled as deduplicated lists. -/
def pdfScore (query fname : List Char) : Nat :=
  let ql := lowerL query
  let qw := (wordsL ql).dedup
  let fl := lowerL fname
  let fne := removePdf fl
  let fw := (wordsL (underscoreDashToSpace fne)).dedup
  let s1 := if infixL ql fne then 100 else 0
  let s2 := s1 + 10 * (qw.filter (fun q => fw.contains q)).length
  pairBonus qw fw s2

/-- Stable descending insertion on the score component: the semantics of
Python's stable `list.sort(key=lambda x: x[0], reverse=True)`. -/
def insertDesc {α : Type} (x : Nat × α) : List (Nat × α) → List (Nat × α)
  | [] => [x]
  | y :: ys => if x.1 < y.1 then y :: insertDesc x ys else x :: y :: ys

/-- Stable sort by descending score (semantics of the source's
`scored_pdfs.sort(key=lambda x: x[0], reverse=True)`, line 103). -/
def sortDesc {α : Type} : List (Nat × α) → List (Nat × α)
  | [] => []
  | x :: xs => insertDesc x (sortDesc xs)

/-- `GeminiPDFService._match_pdfs_by_title` (source lines 70-104): score
each candidate path on its basename, sort stably by descending score,
return the paths. -/
def matchPdfsByTitle (pdfFiles : List (List Char)) (query : List Char) :
    List (List Char) :=
  (sortDesc (pdfFiles.map (fun p => (pdfScore query (basenameL p), p)))).map Prod.snd

/-- Intent label `"pdf_search"` (intents are Python strings). -/
def labelPdfSearch : List Char := "pdf_search".toList

/-- Intent label `"greeting"`. -/
def labelGreeting : List Char := "greeting".toList

/-- Intent label `"goodbye"`. -/
def labelGoodbye : List Char := "goodbye".toList

/-- Intent label `"help"`. -/
def labelHelp : List Char := "help".toList

/-- Intent label `"unknown"`. -/
def labelUnknown : List Char := "unknown".toList

/-- Regex literal pattern: `re.search(r"lit", m)` is a substring test. -/
def patLit (pat : List Char) (m : List Char) : Bool := infixL pat m

/-- Regex pattern `p1.*p2` under `re.search`: an occurrence of `p1`,
then a gap free of newlines (Python's `.` does not match `\n`), then an
occurrence of `p2` (used with newline-free `p2`). -/
def patSeq (p1 p2 : List Char) (m : List Char) : Bool :=
  (List.range (m.length + 1)).any fun i =>
    startsWithL (m.drop i) p1 &&
      infixL p2 ((m.drop (i + p1.length)).takeWhile (fun c => !(c == '\n')))

/-- Character class `[\s!.,]` of the anchored greeting/goodbye patterns. -/
def trailerChar (c : Char) : Bool :=
  isPySpace c || c == '!' || c == '.' || c == ','

/-- Anchored alternation `^(a|b|c)[\s!.,]*$` under `re.search` on a
stripped string: the message starts with one alternative and the rest
consists only of `[\s!.,]` characters. -/
def patAnchoredAlt (alts : List (List Char)) (m : List Char) : Bool :=
  alts.any fun a => startsWithL m a && (m.drop a.length).all trailerChar

/-- Regex `good (morning|afternoon|evening)` under `re.search`. -/
def patGood (m : List Char) : Bool :=
  infixL "good morning".toList m || infixL "good afternoon".toList m ||
    infixL "good evening".toList m

/-- Keyword list of the `pdf_search` intent (source lines 12-13 of
`intent_classifier.py`). -/
def pdfSearchKeywords : List (List Char) :=
  (["search", "find", "where", "locate", "look for", "who", "what", "when",
    "why", "how", "checkup", "tell me", "true", "is", "are", "can", "does",
    "do"]).map String.toList

/-- Regex patterns of the `pdf_search` intent (source lines 14-22). -/
def pdfSearchPatterns : List (List Char → Bool) :=
  [patLit "search".toList, patLit "find".toList, patLit "where".toList,
   patSeq "what".toList "is".toList, patSeq "who".toList "is".toList,
   patSeq "how".toList "does".toList, patLit "tell me".toList]

/-- Keyword list of the `greeting` intent (source line 25). -/
def greetingKeywords : List (List Char) :=
  (["hello", "hi", "hey", "greetings", "good morning",
    "good afternoon"]).map String.toList

/-- Regex patterns of the `greeting` intent (source lines 26-29). -/
def greetingPatterns : List (List Char → Bool) :=
  [patAnchoredAlt ["hello".toList, "hi".toList, "hey".toList], patGood]

/-- Keyword list of the `goodbye` intent (source line 32). -/
def goodbyeKeywords : List (List Char) :=
  (["bye", "goodbye", "see you", "farewell", "exit"]).map String.toList

/-- Regex patterns of the `goodbye` intent (source lines 33-35). -/
def goodbyePatterns : List (List Char → Bool) :=
  [patAnchoredAlt ["bye".toList, "goodbye".toList, "see you".toList]]

/-- Keyword list of the `help` intent (source line 38). -/
def helpKeywords : List (List Char) :=
  (["help", "assist", "support", "what can you do"]).map String.toList

/-- Regex patterns of the `help` intent (source lines 39-43). -/
def helpPatterns : List (List Char → Bool) :=
  [patLit "help".toList, patLit "what can you do".toList,
   patLit "how can you help".toList]

/-- Keyword half of an intent's score: 2 points per keyword present as a
substring (source lines 64-67). -/
def keywordScore (m : List Char) (kws : List (List Char)) : Nat :=
  kws.foldl (fun a k => if infixL k m then a + 2 else a) 0

/-- Pattern half of an intent's score: 5 points per matching pattern
(source lines 69-72). -/
def patternScore (m : List Char) (ps : List (List Char → Bool)) : Nat :=
  ps.foldl (fun a p => if p m then a + 5 else a) 0

/-- Score of one intent: keyword points plus pattern points. -/
def intentScore (m : List Char) (kws : List (List Char))
    (ps : List (List Char → Bool)) : Nat :=
  keywordScore m kws + patternScore m ps

/-- Python's `max(intent_scores, key=intent_scores.get)` over a dict in
insertion order: the first label attaining the maximal score. -/
def argmaxFirst : List (List Char × Nat) → List Char × Nat
  | [] => (labelUnknown, 0)
  | (i, s) :: rest =>
    if s < (argmaxFirst rest).2 then argmaxFirst rest else (i, s)

/-- Substrings whose presence makes the fallback classify a message as a
search query (source line 88). -/
def fallbackWords : List (List Char) :=
  (["?", "what", "who", "when", "where", "why", "how", "is", "are", "can",
    "does", "do"]).map String.toList

/-- Does the message contain a question word, an auxiliary verb or a
question mark (source line 88)? -/
def fallbackHit (m : List Char) : Bool :=
  fallbackWords.any fun wrd => infixL wrd m

/-- Scores of the five intents of the table, in dict insertion order. -/
def intentScoresOf (m : List Char) : List (List Char × Nat) :=
  [(labelPdfSearch, intentScore m pdfSearchKeywords pdfSearchPatterns),
   (labelGreeting, intentScore m greetingKeywords greetingPatterns),
   (labelGoodbye, intentScore m goodbyeKeywords goodbyePatterns),
   (labelHelp, intentScore m helpKeywords helpPatterns),
   (labelUnknown, 0)]

/-- `IntentClassifier.classify` (source lines 51-91): lower-case and strip
the message, score every intent, return the best-scoring label when its
score is positive, otherwise fall back to `pdf_search` for question-like
messages (guarded by the greeting/goodbye/help scores being zero) and to
`unknown` for the rest. -/
def classify (msg : List Char) : List Char :=
  let m := trimL (lowerL msg)
  let best := argmaxFirst (intentScoresOf m)
  if 0 < best.2 ∧ ¬ best.1 = labelUnknown then best.1
  else
    if intentScore m greetingKeywords greetingPatterns = 0 ∧
        intentScore m goodbyeKeywords goodbyePatterns = 0 ∧
        intentScore m helpKeywords helpPatterns = 0 ∧
        fallbackHit m = true then
      labelPdfSearch
    else labelUnknown

/-- Operation string `"search"`. -/
def opSearch : List Char := "search".toList

/-- Result record of `RuleEngine.apply_rules`.  The `pdf_path` and
`metadata` fields of the source are filesystem/regex extras consumed by no
claim and are not modelled. -/
structure RuleResult where
  requiresGemini : Bool
  operation : Option (List Char)
  intent : List Char
deriving DecidableEq

/-- The `intent_to_operation` table of `RuleEngine` (source lines 15-20). -/
def intentToOperation : List (List Char × List Char) :=
  [("pdf_search", "search"), ("pdf_extract", "extract"),
   ("pdf_summarize", "summarize"), ("pdf_lookup", "lookup")].map
    fun pr => (pr.1.toList, pr.2.toList)

/-- Python `dict.get` on an association list. -/
def lookupAssoc (k : List Char) : List (List Char × List Char) → Option (List Char)
  | [] => none
  | (k2, v) :: rest => if k = k2 then some v else lookupAssoc k rest

/-- `RuleEngine.apply_rules` (source lines 22-48), restricted to the
fields the claims speak about: an intent starting with `pdf_` whose
operation is in the table requires Gemini with that operation. -/
def applyRules (intent : List Char) (_msg : List Char) : RuleResult :=
  if startsWithL intent "pdf_".toList then
    match lookupAssoc intent intentToOperation with
    | some op => ⟨true, some op, intent⟩
    | none => ⟨false, none, intent⟩
  else ⟨false, none, intent⟩

instance {α β : Type} [DecidableEq α] [DecidableEq β] :
    DecidableEq (Except α β) := fun x y =>
  match x, y with
  | .error a, .error b =>
    if h : a = b then isTrue (by rw [h])
    else isFalse (by intro hc; cases hc; exact h rfl)
  | .error _, .ok _ => isFalse (by intro h; cases h)
  | .ok _, .error _ => isFalse (by intro h; cases h)
  | .ok a, .ok b =>
    if h : a = b then isTrue (by rw [h])
    else isFalse (by intro hc; cases hc; exact h rfl)

/-- A candidate file of the uploads directory: its name and the outcome of
text extraction (`GeminiPDFService._read_pdf`), `Except.error` carrying the
message of the exception `_search_single_pdf` would catch. -/
structure PdfFile where
  name : List Char
  content : Except (List Char) (List Char)
deriving DecidableEq

/-- The opaque external model: prompt text in, response text out, or a
failure whose message the search loop records. -/
def ModelFn : Type := List Char → Except (List Char) (List Char)

/-- The environment of one search: the uploads directory (`none` when the
directory does not exist) and the optional configured model (`none` when
`GEMINI_API_KEY` is absent, mirroring `self.model = None`). -/
structure World where
  dir : Option (List PdfFile)
  model : Option ModelFn

/-- `GeminiPDFService._find_all_pdfs` (source lines 61-68): the entries of
the directory whose lower-cased name ends in `.pdf`; empty when the
directory does not exist. -/
def findAllPdfs (w : World) : List PdfFile :=
  match w.dir with
  | none => []
  | some entries => entries.filter fun f => endsWithL (lowerL f.name) ".pdf".toList

/-- Ranking of candidate files, as `search_all_pdfs` uses
`_match_pdfs_by_title` on their paths: stable sort by descending
`pdfScore` of the basename. -/
def rankFiles (files : List PdfFile) (query : List Char) : List PdfFile :=
  (sortDesc (files.map fun f => (pdfScore query (basenameL f.name), f))).map Prod.snd

/-- The sentinel string of the prompt contract. -/
def noInfoSentinel : List Char := "NO_RELEVANT_INFO".toList

/-- Hit test of `_search_single_pdf` (source line 162): the stripped
response, upper-cased, differs from the sentinel and is longer than 20
characters. -/
def hitTest (rt : List Char) : Bool :=
  !(upperL rt == noInfoSentinel) && decide (20 < rt.length)

/-- The prompt of `_search_single_pdf` (source lines 148-156), with the
1-based part number and total spliced in. -/
def mkPrompt (query chunk : List Char) (idx total : Nat) : List Char :=
  "You are analyzing a PDF document. The user wants to search for: \"".toList ++
    query ++
    "\"\n\nPDF Content (Part ".toList ++ (Nat.repr (idx + 1)).toList ++
    " of ".toList ++ (Nat.repr total).toList ++ "):\n".toList ++ chunk ++
    "\n\nTask: Search through this PDF content and find information related to \"".toList ++
    query ++
    "\".\n- If you find relevant information, provide a one line answer with inline citations in APA 7th edition formatting.\n- If no relevant information is found in this chunk, respond with \"NO_RELEVANT_INFO\".\n- Do not use any formatting, bullet points, or line breaks.".toList

/-- One model call of the chunk loop. -/
def chunkQuery (m : ModelFn) (query chunk : List Char) (idx total : Nat) :
    Except (List Char) (List Char) :=
  m (mkPrompt query chunk idx total)

/-- Result of `_search_single_pdf` for one file: a hit (the dict with
`success` and `found_in_chunk` true, carrying `results`, `pdf_name`,
`chunk_searched` and `total_chunks`; the dict's `query`, `pdf_path` and
constant `operation` entries are redundant with the carried data and are
not separate fields), no relevant info, or a caught exception with its
message. -/
inductive SingleResult where
  | hit (results pdfName : List Char) (chunkSearched totalChunks : Nat)
  | noInfo (pdfName : List Char)
  | err (error pdfName : List Char)
deriving DecidableEq

/-- The `for chunk_idx, chunk in enumerate(chunks)` loop of
`_search_single_pdf` (source lines 147-174): query the model per chunk in
order, return at the first qualifying response; a model failure is the
exception the enclosing `try` catches. -/
def searchChunks (m : ModelFn) (query nm : List Char) (total : Nat) :
    List (List Char) → Nat → SingleResult
  | [], _ => .noInfo nm
  | c :: cs, idx =>
    match chunkQuery m query c idx total with
    | .error e => .err e nm
    | .ok r =>
      let rt := trimL r
      if hitTest rt then .hit rt nm (idx + 1) total
      else searchChunks m query nm total cs (idx + 1)

/-- `GeminiPDFService._search_single_pdf` (source lines 136-190). -/
def searchSinglePdf (m : ModelFn) (query : List Char) (f : PdfFile) :
    SingleResult :=
  match f.content with
  | .error e => .err e f.name
  | .ok txt =>
    let chunks := splitTextIntoChunks txt 50000 5000
    searchChunks m query f.name chunks.length chunks 0

/-- Did `_search_single_pdf` report `success` and `found_in_chunk`? -/
def isHitResult : SingleResult → Bool
  | .hit _ _ _ _ => true
  | _ => false

/-- Return value of `search_all_pdfs`, one constructor per returned dict
shape: missing model, empty corpus, a hit (with `pdfs_searched` and
`pdfs_total` attached), exhaustion with the searched names, and the
`unknown operation` error dict of `_handle_pdf_operation`. -/
inductive Outcome where
  | notConfigured (error : List Char)
  | noPdfs (error : List Char)
  | found (results pdfName : List Char)
      (chunkSearched totalChunks pdfsSearched pdfsTotal : Nat)
  | exhausted (query error : List Char) (pdfsSearched pdfsTotal : Nat)
      (searchedNames : List (List Char))
  | opError (error : List Char)
deriving DecidableEq

/-- Error message of `search_all_pdfs` when no model is configured
(source line 203). -/
def msgNotInitialized : List Char :=
  "Gemini API not initialized. Please set GEMINI_API_KEY environment variable.".toList

/-- Error message for an empty corpus (source line 217). -/
def msgNoPdfs : List Char := "No PDF files found in the uploads directory.".toList

/-- Error message after exhausting every candidate (source line 251). -/
def msgNoRelevant : List Char :=
  "No relevant information found in any of the PDF documents.".toList

/-- The `for pdf_path in matched_pdfs` loop of `search_all_pdfs` (source
lines 228-245): search candidates in ranked order, counting them and
recording their names; return at the first hit; a per-file error is only
printed, the loop continues.  The second component is the list of names
whose examination was attempted (the source's `searched_pdf_names`),
serving as the trace of file reads / model queries. -/
def searchLoop (m : ModelFn) (query : List Char) (total : Nat) :
    List PdfFile → Nat → List (List Char) → Outcome × List (List Char)
  | [], searched, names =>
    (.exhausted query msgNoRelevant searched total names.reverse, names.reverse)
  | f :: fs, searched, names =>
    match searchSinglePdf m query f with
    | .hit res nm ci tc =>
      (.found res nm ci tc (searched + 1) total, (f.name :: names).reverse)
    | _ => searchLoop m query total fs (searched + 1) (f.name :: names)

/-- `GeminiPDFService.search_all_pdfs` (source lines 192-256), returning
the outcome together with the trace of examined file names. -/
def searchAllPdfs (w : World) (query : List Char) :
    Outcome × List (List Char) :=
  match w.model with
  | none => (.notConfigured msgNotInitialized, [])
  | some m =>
    let allFiles := findAllPdfs w
    if allFiles = [] then (.noPdfs msgNoPdfs, [])
    else searchLoop m query allFiles.length (rankFiles allFiles query) 0 []

/-- Greeting templates of `ResponseTemplates` (source lines 12-16). -/
def greetingTemplates : List (List Char) :=
  (["Hello! I\x27m your document assistant chatbot. I can search through all your PDF documents automatically. Just ask me any question!",
    "Hi there! I automatically search through all available PDF documents to answer your questions. What would you like to know?",
    "Greetings! Ask me any question and I\x27ll search through my document database to find the answer for you."]).map String.toList

/-- Goodbye templates (source lines 17-21). -/
def goodbyeTemplates : List (List Char) :=
  (["Goodbye! Have a great day!",
    "See you later! Feel free to come back if you need help with documents.",
    "Farewell! Take care!"]).map String.toList

/-- Help template (source lines 22-23). -/
def helpTemplate : List Char :=
  ("I\x27m a chatbot that can help you search for nutritional facts! \n            Just ask me any question and I\x27ll search through my documents to find the answer!").toList

/-- Empty-message template (source line 24). -/
def emptyTemplate : List Char :=
  "I didn\x27t receive a message. Please type something!".toList

/-- Unknown-intent template (source line 25). -/
def unknownTemplate : List Char :=
  "I\x27m not sure I understand. Could you rephrase that?".toList

/-- `ResponseTemplates.format_response` (source lines 28-41):
`random.choice` over the list-valued templates is the explicit chooser
`pick`. -/
def formatResponse (pick : List (List Char) → List Char)
    (intent : List Char) : List Char :=
  if intent = labelGreeting then pick greetingTemplates
  else if intent = labelGoodbye then pick goodbyeTemplates
  else if intent = labelHelp then helpTemplate
  else if intent = "empty".toList then emptyTemplate
  else unknownTemplate

/-- Python rendering of the optional operation string in f-strings
(`None` for the absent value). -/
def renderOp : Option (List Char) → List Char
  | none => "None".toList
  | some o => o

/-- Error message of a non-success outcome (`result.get("error", "Unknown
error occurred")`). -/
def outcomeErrorMsg : Outcome → List Char
  | .notConfigured e => e
  | .noPdfs e => e
  | .exhausted _ e _ _ _ => e
  | .opError e => e
  | .found _ _ _ _ _ _ => "Unknown error occurred".toList

/-- `ResponseTemplates.format_pdf_response` (source lines 43-58).  The
dict-repr tail of the `Operation completed` branch is unreachable through
the pipeline and is not rendered. -/
def formatPdfResponse (op : Option (List Char)) (r : Outcome) : List Char :=
  match r with
  | .found results _ _ _ _ _ =>
    if op = some opSearch then results
    else "Operation completed: ".toList ++ renderOp op ++ "\n\n".toList
  | o =>
    "❌ Error performing ".toList ++ renderOp op ++
      " operation: ".toList ++ outcomeErrorMsg o

/-- `ChatbotEngine._handle_pdf_operation` (source lines 55-65), returning
the outcome and the trace of examined file names. -/
def handlePdfOperation (w : World) (op : Option (List Char))
    (query : List Char) : Outcome × List (List Char) :=
  if op = some opSearch then searchAllPdfs w query
  else (.opError ("Unknown PDF operation: ".toList ++ renderOp op), [])

/-- Note appended by `process_message` when the whole Gemini service
failed to construct (source line 39). -/
def notConfiguredNote : List Char :=
  "\n\nNote: Gemini API is not configured. Please set GEMINI_API_KEY environment variable to use PDF operations.".toList

/-- `ChatbotEngine.process_message` (source lines 19-53): empty-message
guard, classification, rules, optional Gemini dispatch, formatting.
`service` is `none` when the service constructor raised.  Returns the
user-visible text and the trace of examined file names. -/
def processMessage (pick : List (List Char) → List Char)
    (service : Option World) (msg : List Char) :
    List Char × List (List Char) :=
  if trimL msg = [] then (emptyTemplate, [])
  else
    let intent := classify msg
    let rule := applyRules intent msg
    if rule.requiresGemini = true then
      match service with
      | none => (unknownTemplate ++ notConfiguredNote, [])
      | some w =>
        let pr := handlePdfOperation w rule.operation msg
        (formatPdfResponse rule.operation pr.1, pr.2)
    else (formatResponse pick intent, [])

/-- Modelled from the claim C4 wording: score formula with the filename
normalized by stripping the `.pdf` extension (drop a final `.pdf`):
100 times the query-substring indicator, plus 10 times the size of the
token intersection, plus 5 per ordered pair matching as a substring in
either direction. -/
def pdfScoreSpecC4 (query fname : List Char) : Nat :=
  let ql := lowerL query
  let qw := (wordsL ql).dedup
  let fl := lowerL fname
  let fne := if endsWithL fl ".pdf".toList then fl.take (fl.length - 4) else fl
  let fw := (wordsL (underscoreDashToSpace fne)).dedup
  (if infixL ql fne then 100 else 0) +
    10 * (qw.filter fun q => fw.contains q).length +
    5 * ((qw.map fun q => (fw.filter fun f => infixL q f || infixL f q).length).sum)

/-- Amended C4 formula: identical to the claim's sum-of-three-terms score,
except that the name normalization removes every occurrence of `.pdf`
(the source's `replace('.pdf', '')`), not only a final extension. -/
def pdfScoreSpecC4Amended (query fname : List Char) : Nat :=
  let ql := lowerL query
  let qw := (wordsL ql).dedup
  let fne := removePdf (lowerL fname)
  let fw := (wordsL (underscoreDashToSpace fne)).dedup
  (if infixL ql fne then 100 else 0) +
    10 * (qw.filter fun q => fw.contains q).length +
    5 * ((qw.map fun q => (fw.filter fun f => infixL q f || infixL f q).length).sum)

/-- Modelled from the claim C8 wording: lower-case and trim, score as
`2·keywords + 5·patterns`, return the maximum-scoring intent (first in
table order on ties) when its score is positive, otherwise `pdf_search`
for messages containing a question word, auxiliary verb or question mark,
else `unknown` — with no further guard in the fallback. -/
def classifySpecC8 (msg : List Char) : List Char :=
  let m := trimL (lowerL msg)
  let best := argmaxFirst (intentScoresOf m)
  if 0 < best.2 ∧ ¬ best.1 = labelUnknown then best.1
  else if fallbackHit m = true then labelPdfSearch
  else labelUnknown

/-- Failing input of claim C2: fourteen `a`s, a period, ten `a`s, chunked
with `chunk_size = 10`, `overlap = 3`.  The second chunk `t[7:17]` holds
its last period at chunk-relative index 7, and cutting there would keep
8 ≥ 10/2 characters, yet the source keeps the hard cut because it compares
7 against `start + chunk_size // 2 = 12`. -/
def textC2 : List Char := "aaaaaaaaaaaaaa.aaaaaaaaaa".toList

/-- Model response used by the worked corpora: a qualifying answer. -/
def ansHit : List Char :=
  "The answer sentence is sufficiently long here.".toList

/-- Three-file corpus for the early-stopping scenario of claim C1. -/
def filesC1 : List PdfFile :=
  [⟨"a.pdf".toList, .ok "xa".toList⟩, ⟨"b.pdf".toList, .ok "xb".toList⟩,
   ⟨"c.pdf".toList, .ok "xc".toList⟩]

/-- Opaque model of the C1 scenario: answers only the prompt built from
the single chunk of `b.pdf`, and the sentinel everywhere else. -/
def modelC1 : ModelFn := fun p =>
  if p = mkPrompt "q".toList "xb".toList 0 1 then .ok ansHit
  else .ok noInfoSentinel

/-- World of the C1 scenario. -/
def worldC1 : World := ⟨some filesC1, some modelC1⟩

/-- Model that never finds anything. -/
def modelNoInfo : ModelFn := fun _ => .ok noInfoSentinel

/-- World with a configured model but no uploads directory (claim C6). -/
def worldC6 : World := ⟨none, some modelNoInfo⟩

/-- Two-file corpus for claim C7: extraction of the first file fails with
message `boom`, the second yields no relevant info. -/
def filesC7 : List PdfFile :=
  [⟨"a.pdf".toList, .error "boom".toList⟩, ⟨"b.pdf".toList, .ok "xb".toList⟩]

/-- World of the C7 scenario. -/
def worldC7 : World := ⟨some filesC7, some modelNoInfo⟩

/-- World with no configured model (claim C9: `GEMINI_API_KEY` absent,
construction succeeded with `self.model = None`). -/
def worldC9 : World := ⟨some [], none⟩

theorem sliceL_get (t : List Char) (s k p : Nat) (h : p < k) :
    ((t.drop s).take k).get? p = t.get? (s + p) := by
  rw [List.get?_take h, List.get?_drop]

theorem rlastGo_bound (c : Char) :
    ∀ (l : List Char) (base j : Nat), rlastGo c l base = some j →
      base ≤ j ∧ j < base + l.length := by
  intro l
  induction l with
  | nil => intro base j h; simp [rlastGo] at h
  | cons a as ih =>
    intro base j h
    rw [rlastGo] at h
    rcases hr : rlastGo c as (base + 1) with _ | j2
    · rw [hr] at h
      by_cases hc : (a == c) = true
      · simp only [hc, if_true] at h
        injection h with h
        subst h
        simp
      · simp only [hc, if_false] at h
        exact absurd h (by simp)
    · rw [hr] at h
      injection h with h
      subst h
      have h2 := ih (base + 1) j2 hr
      constructor
      · omega
      · simp only [List.length_cons]; omega

theorem rfindFromL_bound (l : List Char) (c : Char) (lo j : Nat)
    (h : rfindFromL l c lo = some j) : j < l.length := by
  have h2 := rlastGo_bound c (l.drop lo) lo j h
  have h3 : (l.drop lo).length = l.length - lo := List.length_drop lo l
  omega

theorem maxOpt_cases (x y : Option Nat) (j : Nat) (h : maxOpt x y = some j) :
    x = some j ∨ y = some j := by
  cases x with
  | none => right; simpa [maxOpt] using h
  | some a =>
    cases y with
    | none => left; simpa [maxOpt] using h
    | some b =>
      simp only [maxOpt] at h
      injection h with h
      rcases max_choice a b with h2 | h2 <;> rw [h2] at h <;> simp [h]

theorem breakPt_bound (t : List Char) (start cs b : Nat)
    (h : breakPt t start cs = some b) : b < (chunkOf t start cs).length := by
  rcases maxOpt_cases _ _ _ h with h2 | h2
  · exact rfindFromL_bound _ _ _ _ h2
  · exact rfindFromL_bound _ _ _ _ h2

theorem chunkOf_length (t : List Char) (start cs : Nat) :
    (chunkOf t start cs).length = min cs (t.length - start) := by
  simp only [chunkOf, sliceL, List.length_take, List.length_drop]
  omega

theorem chunksGo_stop (cs ov : Nat) (t : List Char) (fuel s : Nat)
    (h : t.length ≤ s) : chunksGo cs ov t fuel s = [] := by
  cases fuel with
  | zero => simp [chunksGo]
  | succ n => simp [chunksGo, chunkStep, Nat.not_lt.mpr h]

theorem chunkOf_get (t : List Char) (start cs p : Nat) (h1 : start ≤ p)
    (h2 : p < start + cs) :
    (chunkOf t start cs).get? (p - start) = t.get? p := by
  show ((t.drop start).take (start + cs - start)).get? (p - start) = t.get? p
  rw [sliceL_get t start (start + cs - start) (p - start) (by omega)]
  congr 1
  omega

theorem chunksGo_cover (t : List Char) (cs ov : Nat) (hoc : ov < cs)
    (hoh : ov < cs / 2 + 2) :
    ∀ (fuel start p : Nat), t.length - start ≤ fuel → start ≤ p →
      p < t.length →
      ∃ c ∈ chunksGo cs ov t fuel start, ∃ k, c.get? k = t.get? p := by
  intro fuel
  induction fuel with
  | zero => intro start p hf hsp hp; omega
  | succ n ih =>
    intro start p hf hsp hp
    have hstart : start < t.length := by omega
    rw [chunksGo]
    simp only [chunkStep, if_pos hstart]
    by_cases hstop : start + cs < t.length
    · simp only [if_pos hstop]
      have hlen : (chunkOf t start cs).length = cs := by
        rw [chunkOf_length]; omega
      have hard : ∃ c ∈ chunkOf t start cs :: chunksGo cs ov t n (start + cs - ov),
          ∃ k, c.get? k = t.get? p := by
        by_cases hpc : p < start + cs
        · exact ⟨chunkOf t start cs, List.mem_cons_self _ _, p - start,
            chunkOf_get t start cs p hsp hpc⟩
        · obtain ⟨c, hc, hk⟩ := ih (start + cs - ov) p (by omega) (by omega) hp
          exact ⟨c, List.mem_cons_of_mem _ hc, hk⟩
      rcases hbp : breakPt t start cs with _ | b
      · simpa only [hbp] using hard
      · simp only [hbp]
        by_cases hcond : start + cs / 2 < b
        · simp only [if_pos hcond]
          have hb : b < cs := by
            have h3 := breakPt_bound t start cs b hbp
            rwa [hlen] at h3
          by_cases hpc : p < start + b + 1
          · refine ⟨(chunkOf t start cs).take (b + 1), List.mem_cons_self _ _,
              p - start, ?_⟩
            rw [List.get?_take (by omega : p - start < b + 1)]
            exact chunkOf_get t start cs p hsp (by omega)
          · obtain ⟨c, hc, hk⟩ := ih (start + b + 1 - ov) p (by omega) (by omega) hp
            exact ⟨c, List.mem_cons_of_mem _ hc, hk⟩
        · simp only [if_neg hcond]
          exact hard
    · simp only [if_neg hstop]
      exact ⟨chunkOf t start cs, List.mem_cons_self _ _, p - start,
        chunkOf_get t start cs p hsp (by omega)⟩

theorem chunkOf_take (t : List Char) (start cs b : Nat) (hb : b < cs) :
    (chunkOf t start cs).take (b + 1) = sliceL t start (start + b + 1) := by
  show ((t.drop start).take (start + cs - start)).take (b + 1) =
    (t.drop start).take (start + b + 1 - start)
  rw [List.take_take]
  congr 1
  omega

theorem chunkOf_eq_sliceL (t : List Char) (start cs : Nat) :
    chunkOf t start cs = sliceL t start (start + cs) := rfl

theorem chunksGo_chain (t : List Char) (cs ov : Nat) (hoc : ov < cs)
    (hoh : ov < cs / 2 + 2) :
    ∀ (fuel start : Nat), t.length - start ≤ fuel → start < t.length →
      ∃ bs : List (Nat × Nat),
        chunksGo cs ov t fuel start = bs.map (fun pr => sliceL t pr.1 pr.2) ∧
        bs.head?.map Prod.fst = some start ∧
        List.Chain' (fun pr q => q.1 + ov = pr.2) bs ∧
        ∀ pr ∈ bs, pr.1 < pr.2 := by
  intro fuel
  induction fuel with
  | zero => intro start hf hs; omega
  | succ n ih =>
    intro start hf hs
    rw [chunksGo]
    simp only [chunkStep, if_pos hs]
    have hard : ∀ hstop2 : Prop, ∀ inst : Decidable hstop2,
        ∃ bs : List (Nat × Nat),
          (chunkOf t start cs :: chunksGo cs ov t n (start + cs - ov)) =
            bs.map (fun pr => sliceL t pr.1 pr.2) ∧
          bs.head?.map Prod.fst = some start ∧
          List.Chain' (fun pr q => q.1 + ov = pr.2) bs ∧
          ∀ pr ∈ bs, pr.1 < pr.2 := by
      intro _ _
      by_cases hnext : start + cs - ov < t.length
      · obtain ⟨bs2, h1, h2, h3, h4⟩ := ih (start + cs - ov) (by omega) hnext
        refine ⟨(start, start + cs) :: bs2, ?_, by simp, ?_, ?_⟩
        · simp only [List.map_cons, h1, chunkOf_eq_sliceL]
        · rw [List.chain'_cons']
          refine ⟨?_, h3⟩
          intro y hy
          rw [Option.mem_def] at hy
          rw [hy] at h2
          simp at h2
          omega
        · intro pr hpr
          rcases List.mem_cons.mp hpr with h5 | h5
          · subst h5; omega
          · exact h4 pr h5
      · rw [chunksGo_stop cs ov t n (start + cs - ov) (by omega)]
        refine ⟨[(start, start + cs)], ?_, by simp, ?_, ?_⟩
        · simp [chunkOf_eq_sliceL]
        · simp
        · intro pr hpr
          simp only [List.mem_singleton] at hpr
          subst hpr
          omega
    by_cases hstop : start + cs < t.length
    · simp only [if_pos hstop]
      have hlen : (chunkOf t start cs).length = cs := by
        rw [chunkOf_length]; omega
      rcases hbp : breakPt t start cs with _ | b
      · simp only [hbp]
        exact hard True inferInstance
      · simp only [hbp]
        by_cases hcond : start + cs / 2 < b
        · simp only [if_pos hcond]
          have hb : b < cs := by
            have h3 := breakPt_bound t start cs b hbp
            rwa [hlen] at h3
          by_cases hnext : start + b + 1 - ov < t.length
          · obtain ⟨bs2, h1, h2, h3, h4⟩ := ih (start + b + 1 - ov) (by omega) hnext
            refine ⟨(start, start + b + 1) :: bs2, ?_, by simp, ?_, ?_⟩
            · simp only [List.map_cons, h1, chunkOf_take t start cs b hb]
            · rw [List.chain'_cons']
              refine ⟨?_, h3⟩
              intro y hy
              rw [Option.mem_def] at hy
              rw [hy] at h2
              simp at h2
              omega
            · intro pr hpr
              rcases List.mem_cons.mp hpr with h5 | h5
              · subst h5; omega
              · exact h4 pr h5
          · rw [chunksGo_stop cs ov t n (start + b + 1 - ov) (by omega)]
            refine ⟨[(start, start + b + 1)], ?_, by simp, ?_, ?_⟩
            · simp [chunkOf_take t start cs b hb]
            · simp
            · intro pr hpr
              simp only [List.mem_singleton] at hpr
              subst hpr
              omega
        · simp only [if_neg hcond]
          exact hard True inferInstance
    · simp only [if_neg hstop]
      exact hard True inferInstance

/-- C3: a text no longer than `chunk_size` is returned as the single
chunk equal to the text; for a longer text (any parameters with
`overlap < chunk_size` and `overlap < chunk_size / 2 + 2`, in particular
the defaults 50000/5000), the chunks are consecutive slices of the text —
there are slice bounds starting at 0, each next slice starting `overlap`
characters before the previous slice's intended end — and every character
position of the text is covered by some chunk. -/
theorem claim_C3_chunk_roundtrip_coverage (t : List Char) (cs ov : Nat) :
    (t.length ≤ cs → splitTextIntoChunks t cs ov = [t]) ∧
    (ov < cs → ov < cs / 2 + 2 → cs < t.length →
      (∃ bs : List (Nat × Nat),
        splitTextIntoChunks t cs ov = bs.map (fun pr => sliceL t pr.1 pr.2) ∧
        bs.head?.map Prod.fst = some 0 ∧
        List.Chain' (fun pr q => q.1 + ov = pr.2) bs ∧
        ∀ pr ∈ bs, pr.1 < pr.2) ∧
      ∀ p, p < t.length →
        ∃ c ∈ splitTextIntoChunks t cs ov, ∃ k, c.get? k = t.get? p) := by
  constructor
  · intro h
    simp [splitTextIntoChunks, h]
  · intro hoc hoh hlen
    have hsp : splitTextIntoChunks t cs ov = chunksGo cs ov t t.length 0 := by
      simp [splitTextIntoChunks, Nat.not_le.mpr hlen]
    constructor
    · rw [hsp]
      exact chunksGo_chain t cs ov hoc hoh t.length 0 (by omega) (by omega)
    · intro p hp
      rw [hsp]
      exact chunksGo_cover t cs ov hoc hoh t.length 0 p (by omega) (by omega) hp

/-- Witness for C3: a 2-character text with `chunk_size = 5` comes back
whole, and character 7 of a 12-character text split with
`chunk_size = 5`, `overlap = 2` appears in one of the chunks. -/
theorem claim_C3_witness :
    splitTextIntoChunks "ab".toList 5 2 = ["ab".toList] ∧
    (∃ c ∈ splitTextIntoChunks "abcdefghijkl".toList 5 2, ∃ k,
      c.get? k = "abcdefghijkl".toList.get? 7) :=
  ⟨(claim_C3_chunk_roundtrip_coverage "ab".toList 5 2).1 (by decide),
   ((claim_C3_chunk_roundtrip_coverage "abcdefghijkl".toList 5 2).2
     (by decide) (by decide) (by decide)).2 7 (by decide)⟩

/-- C2 (code bug): on the failing input `textC2` (fourteen `a`s, one
period, ten `a`s) with `chunk_size = 10`, `overlap = 3`, the second chunk
`t[7:17]` holds a period at chunk-relative index 7 — cutting after it
would keep 8 ≥ 10/2 characters of the chunk — yet the code keeps the
10-character hard cut, because line 125 compares the chunk-relative index
7 with the absolute `start + chunk_size // 2 = 12`.  The code's own
comment (`Only break if we get at least half a chunk`) and the claim both
call for the cut `t[7:15]` ending at the period. -/
theorem claim_C2_boundary_cut_kept_hard :
    splitTextIntoChunks textC2 10 3 =
      (["aaaaaaaaaa", "aaaaaaa.aa", ".aaaaaaaaa", "aaaa"].map String.toList) ∧
    ¬ (splitTextIntoChunks textC2 10 3).get? 1 = some "aaaaaaa.".toList := by
  constructor
  · decide
  · decide

theorem foldl_five {α : Type} (P : α → Bool) :
    ∀ (l : List α) (acc : Nat),
      l.foldl (fun a x => if P x then a + 5 else a) acc =
        acc + 5 * (l.filter P).length := by
  intro l
  induction l with
  | nil => intro acc; simp
  | cons x xs ih =>
    intro acc
    by_cases h : P x = true
    · simp only [List.foldl_cons, if_pos h, ih, List.filter_cons, h,
        if_true, List.length_cons]
      omega
    · simp only [List.foldl_cons, if_neg h, ih, List.filter_cons, h]
      simp [h]

theorem pairBonus_eq (fw : List (List Char)) :
    ∀ (qw : List (List Char)) (s : Nat),
      pairBonus qw fw s =
        s + 5 * ((qw.map fun q =>
          (fw.filter fun f => infixL q f || infixL f q).length).sum) := by
  intro qw
  induction qw with
  | nil => intro s; simp [pairBonus]
  | cons q qs ih =>
    intro s
    unfold pairBonus
    rw [List.foldl_cons]
    have h1 : (List.foldl
        (fun acc2 f => if infixL q f || infixL f q then acc2 + 5 else acc2) s fw) =
        s + 5 * (fw.filter fun f => infixL q f || infixL f q).length :=
      foldl_five (fun f => infixL q f || infixL f q) fw s
    rw [h1]
    refine (ih (s + 5 * (fw.filter fun f => infixL q f || infixL f q).length)).trans ?_
    simp only [List.map_cons, List.sum_cons]
    omega

/-- C4 (amended): the ranker's score of a candidate path against a query
is exactly `100·[lower-cased query substring of the normalized name] +
10·|Q ∩ F| + 5·#ordered matching pairs`, where the name normalization
removes every occurrence of `.pdf` from the lower-cased basename (the
source's `replace('.pdf','')`) rather than stripping only a final
extension. -/
theorem claim_C4_score_formula (path query : List Char) :
    pdfScore query (basenameL path) = pdfScoreSpecC4Amended query (basenameL path) := by
  unfold pdfScore pdfScoreSpecC4Amended
  rw [pairBonus_eq]

/-- C4 counterexample: for the candidate `a.pdfb.pdf` and query `ab` the
code's score is 115 while the claim's extension-stripping formula yields
0 — `replace('.pdf','')` turns the name into `ab`, extension stripping
into `a.pdfb`. -/
theorem claim_C4_counterexample :
    pdfScore "ab".toList (basenameL "a.pdfb.pdf".toList) = 115 ∧
    pdfScoreSpecC4 "ab".toList (basenameL "a.pdfb.pdf".toList) = 0 ∧
    ¬ pdfScore "ab".toList (basenameL "a.pdfb.pdf".toList) =
        pdfScoreSpecC4 "ab".toList (basenameL "a.pdfb.pdf".toList) := by
  refine ⟨by decide, by decide, by decide⟩

theorem insertDesc_perm {α : Type} (x : Nat × α) :
    ∀ l : List (Nat × α), (insertDesc x l).Perm (x :: l) := by
  intro l
  induction l with
  | nil => simp [insertDesc]
  | cons y ys ih =>
    rw [insertDesc]
    by_cases h : x.1 < y.1
    · rw [if_pos h]
      exact (List.Perm.cons y ih).trans (List.Perm.swap x y ys)
    · rw [if_neg h]

theorem sortDesc_perm {α : Type} :
    ∀ l : List (Nat × α), (sortDesc l).Perm l := by
  intro l
  induction l with
  | nil => simp [sortDesc]
  | cons x xs ih =>
    rw [sortDesc]
    exact (insertDesc_perm x (sortDesc xs)).trans (List.Perm.cons x ih)

theorem insertDesc_pairwise {α : Type} (x : Nat × α) :
    ∀ l : List (Nat × α),
      List.Pairwise (fun a b : Nat × α => b.1 ≤ a.1) l →
      List.Pairwise (fun a b : Nat × α => b.1 ≤ a.1) (insertDesc x l) := by
  intro l
  induction l with
  | nil => intro _; simp [insertDesc]
  | cons y ys ih =>
    intro h
    rw [List.pairwise_cons] at h
    obtain ⟨hy, hys⟩ := h
    rw [insertDesc]
    by_cases hlt : x.1 < y.1
    · rw [if_pos hlt]
      rw [List.pairwise_cons]
      constructor
      · intro z hz
        have hz2 := (insertDesc_perm x ys).mem_iff.mp hz
        rcases List.mem_cons.mp hz2 with h2 | h2
        · subst h2; omega
        · exact hy z h2
      · exact ih hys
    · rw [if_neg hlt]
      rw [List.pairwise_cons]
      constructor
      · intro z hz
        rcases List.mem_cons.mp hz with h2 | h2
        · subst h2; omega
        · have := hy z h2; omega
      · rw [List.pairwise_cons]
        exact ⟨hy, hys⟩

theorem sortDesc_pairwise {α : Type} :
    ∀ l : List (Nat × α),
      List.Pairwise (fun a b : Nat × α => b.1 ≤ a.1) (sortDesc l) := by
  intro l
  induction l with
  | nil => simp [sortDesc]
  | cons x xs ih =>
    rw [sortDesc]
    exact insertDesc_pairwise x (sortDesc xs) ih

theorem insertDesc_filterKey {α : Type} (s : Nat) (x : Nat × α) :
    ∀ l : List (Nat × α),
      (insertDesc x l).filter (fun z => z.1 == s) =
        (x :: l).filter (fun z => z.1 == s) := by
  intro l
  induction l with
  | nil => rfl
  | cons y ys ih =>
    rw [insertDesc]
    by_cases hlt : x.1 < y.1
    · rw [if_pos hlt]
      by_cases hy : (y.1 == s) = true
      · have hx : (x.1 == s) = false := by
          simp only [beq_iff_eq] at hy ⊢
          simp only [beq_eq_false_iff_ne]
          omega
        simp only [List.filter_cons, hy, if_true, hx, ih]
        simp [hy, hx]
      · simp only [List.filter_cons, hy, ih]
        simp [hy]
    · rw [if_neg hlt]

theorem sortDesc_filterKey {α : Type} (s : Nat) :
    ∀ l : List (Nat × α),
      (sortDesc l).filter (fun z => z.1 == s) = l.filter (fun z => z.1 == s) := by
  intro l
  induction l with
  | nil => rfl
  | cons x xs ih =>
    rw [sortDesc, insertDesc_filterKey]
    simp only [List.filter_cons, ih]

/-- C5: the ranker is a deterministic pure function whose output lists the
candidate paths in weakly descending score order, and candidates of equal
score keep their input order: for every score value, filtering the output
to that score gives exactly the same list as filtering the input. -/
theorem claim_C5_rank_stable_descending (paths : List (List Char)) (query : List Char) :
    List.Pairwise
      (fun a b => pdfScore query (basenameL b) ≤ pdfScore query (basenameL a))
      (matchPdfsByTitle paths query) ∧
    ∀ s : Nat,
      (matchPdfsByTitle paths query).filter
          (fun p => pdfScore query (basenameL p) == s) =
        paths.filter (fun p => pdfScore query (basenameL p) == s) := by
  constructor
  · unfold matchPdfsByTitle
    rw [List.pairwise_map]
    have hpw := sortDesc_pairwise (paths.map fun p => (pdfScore query (basenameL p), p))
    refine hpw.imp_of_mem ?_
    intro a b ha hb
    have hcoh : ∀ z ∈ sortDesc (paths.map fun p => (pdfScore query (basenameL p), p)),
        z.1 = pdfScore query (basenameL z.2) := by
      intro z hz
      have hz2 := (sortDesc_perm _).mem_iff.mp hz
      obtain ⟨p, _, hep⟩ := List.mem_map.mp hz2
      rw [← hep]
    rw [hcoh a ha, hcoh b hb]
    exact id
  · intro s
    unfold matchPdfsByTitle
    rw [List.filter_map]
    have hcg : (sortDesc (paths.map fun p => (pdfScore query (basenameL p), p))).filter
        ((fun p => pdfScore query (basenameL p) == s) ∘ Prod.snd) =
        (sortDesc (paths.map fun p => (pdfScore query (basenameL p), p))).filter
          (fun z => z.1 == s) := by
      apply List.filter_congr
      intro z hz
      have hz2 := (sortDesc_perm _).mem_iff.mp hz
      obtain ⟨p, _, hep⟩ := List.mem_map.mp hz2
      rw [← hep]
      rfl
    rw [hcg, sortDesc_filterKey, List.filter_map, List.map_map]
    have hid : (Prod.snd ∘ fun p : List Char =>
        (pdfScore query (basenameL p), p)) = id := rfl
    rw [hid, List.map_id]
    rfl

theorem argmax5_fst (i1 i2 i3 i4 i5 : List Char) (s1 s2 s3 s4 : Nat) :
    (argmaxFirst [(i1, s1), (i2, s2), (i3, s3), (i4, s4), (i5, 0)]).1 = i1 ∨
    (argmaxFirst [(i1, s1), (i2, s2), (i3, s3), (i4, s4), (i5, 0)]).1 = i2 ∨
    (argmaxFirst [(i1, s1), (i2, s2), (i3, s3), (i4, s4), (i5, 0)]).1 = i3 ∨
    (argmaxFirst [(i1, s1), (i2, s2), (i3, s3), (i4, s4), (i5, 0)]).1 = i4 := by
  simp only [argmaxFirst]
  split_ifs <;> simp_all <;> omega

theorem argmax5_ge (i1 i2 i3 i4 i5 : List Char) (s1 s2 s3 s4 : Nat) :
    s1 ≤ (argmaxFirst [(i1, s1), (i2, s2), (i3, s3), (i4, s4), (i5, 0)]).2 ∧
    s2 ≤ (argmaxFirst [(i1, s1), (i2, s2), (i3, s3), (i4, s4), (i5, 0)]).2 ∧
    s3 ≤ (argmaxFirst [(i1, s1), (i2, s2), (i3, s3), (i4, s4), (i5, 0)]).2 ∧
    s4 ≤ (argmaxFirst [(i1, s1), (i2, s2), (i3, s3), (i4, s4), (i5, 0)]).2 := by
  simp only [argmaxFirst]
  split_ifs <;> simp_all <;> omega

/-- C8: the classifier lower-cases and strips the message, scores every
intent as 2 per keyword substring plus 5 per matching pattern, returns the
maximum-scoring intent (first in table order on ties) when its score is
positive, and otherwise falls back to `pdf_search` exactly when the
message contains a question word, auxiliary verb or question mark, else
`unknown`.  The source's extra greeting/goodbye/help guard before the
fallback is vacuous: when the winning score is 0, every score is 0. -/
theorem claim_C8_classifier_scoring_fallback (msg : List Char) :
    classify msg = classifySpecC8 msg := by
  unfold classify classifySpecC8
  simp only [intentScoresOf]
  set m := trimL (lowerL msg) with hm
  set sp := intentScore m pdfSearchKeywords pdfSearchPatterns with hsp
  set sg := intentScore m greetingKeywords greetingPatterns with hsg
  set sb := intentScore m goodbyeKeywords goodbyePatterns with hsb
  set sh := intentScore m helpKeywords helpPatterns with hsh
  have hmem := argmax5_fst labelPdfSearch labelGreeting labelGoodbye labelHelp
    labelUnknown sp sg sb sh
  have hge := argmax5_ge labelPdfSearch labelGreeting labelGoodbye labelHelp
    labelUnknown sp sg sb sh
  set best := argmaxFirst [(labelPdfSearch, sp), (labelGreeting, sg),
    (labelGoodbye, sb), (labelHelp, sh), (labelUnknown, 0)] with hbest
  by_cases h : 0 < best.2 ∧ ¬ best.1 = labelUnknown
  · rw [if_pos h, if_pos h]
  · rw [if_neg h, if_neg h]
    have hne : ¬ best.1 = labelUnknown := by
      rcases hmem with h2 | h2 | h2 | h2 <;> rw [h2] <;> decide
    have hz : best.2 = 0 := by
      by_contra h2
      exact h ⟨Nat.pos_of_ne_zero h2, hne⟩
    have hg0 : sg = 0 := by omega
    have hb0 : sb = 0 := by omega
    have hh0 : sh = 0 := by omega
    rw [hg0, hb0, hh0]
    by_cases hf : fallbackHit m = true
    · rw [if_pos ⟨rfl, rfl, rfl, hf⟩, if_pos hf]
    · rw [if_neg ?_, if_neg hf]
      intro hc
      exact hf hc.2.2.2

set_option maxHeartbeats 1000000 in
theorem classify_mem (msg : List Char) :
    classify msg = labelPdfSearch ∨ classify msg = labelGreeting ∨
    classify msg = labelGoodbye ∨ classify msg = labelHelp ∨
    classify msg = labelUnknown := by
  unfold classify
  simp only [intentScoresOf]
  set m := trimL (lowerL msg) with hm
  set sp := intentScore m pdfSearchKeywords pdfSearchPatterns with hsp
  set sg := intentScore m greetingKeywords greetingPatterns with hsg
  set sb := intentScore m goodbyeKeywords goodbyePatterns with hsb
  set sh := intentScore m helpKeywords helpPatterns with hsh
  have hmem := argmax5_fst labelPdfSearch labelGreeting labelGoodbye labelHelp
    labelUnknown sp sg sb sh
  set best := argmaxFirst [(labelPdfSearch, sp), (labelGreeting, sg),
    (labelGoodbye, sb), (labelHelp, sh), (labelUnknown, 0)] with hbest
  by_cases h : 0 < best.2 ∧ ¬ best.1 = labelUnknown
  · rw [if_pos h]
    rcases hmem with h2 | h2 | h2 | h2
    · exact Or.inl h2
    · exact Or.inr (Or.inl h2)
    · exact Or.inr (Or.inr (Or.inl h2))
    · exact Or.inr (Or.inr (Or.inr (Or.inl h2)))
  · rw [if_neg h]
    by_cases h2 : sg = 0 ∧ sb = 0 ∧ sh = 0 ∧ fallbackHit m = true
    · rw [if_pos h2]
      exact Or.inl rfl
    · rw [if_neg h2]
      exact Or.inr (Or.inr (Or.inr (Or.inr rfl)))

theorem applyRules_pdfSearch (msg : List Char) :
    applyRules labelPdfSearch msg = ⟨true, some opSearch, labelPdfSearch⟩ := rfl

theorem applyRules_greeting (msg : List Char) :
    applyRules labelGreeting msg = ⟨false, none, labelGreeting⟩ := rfl

theorem applyRules_goodbye (msg : List Char) :
    applyRules labelGoodbye msg = ⟨false, none, labelGoodbye⟩ := rfl

theorem applyRules_help (msg : List Char) :
    applyRules labelHelp msg = ⟨false, none, labelHelp⟩ := rfl

theorem applyRules_unknown (msg : List Char) :
    applyRules labelUnknown msg = ⟨false, none, labelUnknown⟩ := rfl

/-- C10: for every input, `classify` returns one of the five labels
`pdf_search`, `greeting`, `goodbye`, `help`, `unknown` — never
`pdf_extract`, `pdf_summarize` or `pdf_lookup` — so through the message
pipeline the rule engine's operation is either absent or `search`, and
whenever a Gemini call is required the operation is `search` (the
chatbot's non-search PDF branch is unreachable). -/
theorem claim_C10_closed_label_set (msg : List Char) :
    classify msg ∈
      [labelPdfSearch, labelGreeting, labelGoodbye, labelHelp, labelUnknown] ∧
    ((applyRules (classify msg) msg).operation = none ∨
      (applyRules (classify msg) msg).operation = some opSearch) ∧
    ((applyRules (classify msg) msg).requiresGemini = true →
      (applyRules (classify msg) msg).operation = some opSearch) := by
  rcases classify_mem msg with h | h | h | h | h <;> rw [h]
  · rw [applyRules_pdfSearch]
    exact ⟨by decide, Or.inr rfl, fun _ => rfl⟩
  · rw [applyRules_greeting]
    exact ⟨by decide, Or.inl rfl, fun hx => nomatch hx⟩
  · rw [applyRules_goodbye]
    exact ⟨by decide, Or.inl rfl, fun hx => nomatch hx⟩
  · rw [applyRules_help]
    exact ⟨by decide, Or.inl rfl, fun hx => nomatch hx⟩
  · rw [applyRules_unknown]
    exact ⟨by decide, Or.inl rfl, fun hx => nomatch hx⟩

theorem searchLoop_nil (m : ModelFn) (q : List Char) (total searched : Nat)
    (names : List (List Char)) :
    searchLoop m q total [] searched names =
      (.exhausted q msgNoRelevant searched total names.reverse, names.reverse) := by
  rw [searchLoop]

theorem searchLoop_cons_hit (m : ModelFn) (q : List Char) (total searched : Nat)
    (names : List (List Char)) (f : PdfFile) (fs : List PdfFile)
    (res nm : List Char) (ci tc : Nat)
    (h : searchSinglePdf m q f = .hit res nm ci tc) :
    searchLoop m q total (f :: fs) searched names =
      (.found res nm ci tc (searched + 1) total, (f.name :: names).reverse) := by
  rw [searchLoop, h]

theorem searchLoop_cons_noInfo (m : ModelFn) (q : List Char) (total searched : Nat)
    (names : List (List Char)) (f : PdfFile) (fs : List PdfFile) (nm : List Char)
    (h : searchSinglePdf m q f = .noInfo nm) :
    searchLoop m q total (f :: fs) searched names =
      searchLoop m q total fs (searched + 1) (f.name :: names) := by
  rw [searchLoop, h]

theorem searchLoop_cons_err (m : ModelFn) (q : List Char) (total searched : Nat)
    (names : List (List Char)) (f : PdfFile) (fs : List PdfFile) (e nm : List Char)
    (h : searchSinglePdf m q f = .err e nm) :
    searchLoop m q total (f :: fs) searched names =
      searchLoop m q total fs (searched + 1) (f.name :: names) := by
  rw [searchLoop, h]

theorem searchLoop_found (m : ModelFn) (query : List Char) (total : Nat) :
    ∀ (l : List PdfFile) (j : Nat) (fj : PdfFile) (res nm : List Char)
      (ci tc searched : Nat) (names : List (List Char)),
      l.get? j = some fj →
      searchSinglePdf m query fj = .hit res nm ci tc →
      (∀ i, i < j → ∀ fi, l.get? i = some fi →
        isHitResult (searchSinglePdf m query fi) = false) →
      searchLoop m query total l searched names =
        (.found res nm ci tc (searched + j + 1) total,
          names.reverse ++ (l.take (j + 1)).map (fun f => f.name)) := by
  intro l
  induction l with
  | nil => intro j fj res nm ci tc searched names hj; simp at hj
  | cons f fs ih =>
    intro j fj res nm ci tc searched names hj hhit hmiss
    cases j with
    | zero =>
      rw [List.get?_cons_zero, Option.some.injEq] at hj
      subst hj
      rw [searchLoop_cons_hit m query total searched names f fs res nm ci tc hhit]
      rw [List.take_succ_cons, List.take_zero, List.reverse_cons]
      rfl
    | succ j2 =>
      have hmiss0 := hmiss 0 (Nat.succ_pos j2) f List.get?_cons_zero
      have harith : searched + 1 + j2 + 1 = searched + (j2 + 1) + 1 := by omega
      have htail : ∀ i, i < j2 → ∀ fi, fs.get? i = some fi →
          isHitResult (searchSinglePdf m query fi) = false := by
        intro i hi fi hfi
        exact hmiss (i + 1) (by omega) fi (by rwa [List.get?_cons_succ])
      rw [List.get?_cons_succ] at hj
      cases hres : searchSinglePdf m query f with
      | hit r n c t => rw [hres, isHitResult] at hmiss0; exact absurd hmiss0 (by simp)
      | noInfo n =>
        rw [searchLoop_cons_noInfo m query total searched names f fs n hres]
        rw [ih j2 fj res nm ci tc (searched + 1) (f.name :: names) hj hhit htail]
        rw [harith, List.reverse_cons, List.take_succ_cons, List.map_cons,
          List.append_assoc]
        rfl
      | err e n =>
        rw [searchLoop_cons_err m query total searched names f fs e n hres]
        rw [ih j2 fj res nm ci tc (searched + 1) (f.name :: names) hj hhit htail]
        rw [harith, List.reverse_cons, List.take_succ_cons, List.map_cons,
          List.append_assoc]
        rfl

theorem searchLoop_exhaust (m : ModelFn) (query : List Char) (total : Nat) :
    ∀ (l : List PdfFile) (searched : Nat) (names : List (List Char)),
      (∀ fi ∈ l, isHitResult (searchSinglePdf m query fi) = false) →
      searchLoop m query total l searched names =
        (.exhausted query msgNoRelevant (searched + l.length) total
          (names.reverse ++ l.map (fun f => f.name)),
         names.reverse ++ l.map (fun f => f.name)) := by
  intro l
  induction l with
  | nil =>
    intro searched names _
    rw [searchLoop_nil]
    simp
  | cons f fs ih =>
    intro searched names hmiss
    have hmiss0 := hmiss f (List.mem_cons_self f fs)
    have harith : searched + 1 + fs.length = searched + (f :: fs).length := by
      simp [List.length_cons]; omega
    cases hres : searchSinglePdf m query f with
    | hit r n c t => rw [hres, isHitResult] at hmiss0; exact absurd hmiss0 (by simp)
    | noInfo n =>
      rw [searchLoop_cons_noInfo m query total searched names f fs n hres]
      rw [ih (searched + 1) (f.name :: names)
        (fun fi hfi => hmiss fi (List.mem_cons_of_mem f hfi))]
      rw [harith, List.reverse_cons, List.map_cons, List.append_assoc]
      rfl
    | err e n =>
      rw [searchLoop_cons_err m query total searched names f fs e n hres]
      rw [ih (searched + 1) (f.name :: names)
        (fun fi hfi => hmiss fi (List.mem_cons_of_mem f hfi))]
      rw [harith, List.reverse_cons, List.map_cons, List.append_assoc]
      rfl

theorem searchChunks_nil (m : ModelFn) (query nm : List Char) (total base : Nat) :
    searchChunks m query nm total [] base = .noInfo nm := by
  rw [searchChunks]

theorem searchChunks_cons_err (m : ModelFn) (query nm : List Char)
    (total base : Nat) (c : List Char) (cs : List (List Char)) (e : List Char)
    (h : chunkQuery m query c base total = .error e) :
    searchChunks m query nm total (c :: cs) base = .err e nm := by
  rw [searchChunks, h]

theorem searchChunks_cons_hit (m : ModelFn) (query nm : List Char)
    (total base : Nat) (c : List Char) (cs : List (List Char)) (r : List Char)
    (h : chunkQuery m query c base total = .ok r) (hh : hitTest (trimL r) = true) :
    searchChunks m query nm total (c :: cs) base =
      .hit (trimL r) nm (base + 1) total := by
  rw [searchChunks, h]
  simp [hh]

theorem searchChunks_cons_miss (m : ModelFn) (query nm : List Char)
    (total base : Nat) (c : List Char) (cs : List (List Char)) (r : List Char)
    (h : chunkQuery m query c base total = .ok r) (hh : hitTest (trimL r) = false) :
    searchChunks m query nm total (c :: cs) base =
      searchChunks m query nm total cs (base + 1) := by
  rw [searchChunks, h]
  simp [hh]

theorem searchChunks_hit (m : ModelFn) (query nm : List Char) (total : Nat) :
    ∀ (cl : List (List Char)) (k base : Nat) (ck rk : List Char),
      cl.get? k = some ck →
      chunkQuery m query ck (base + k) total = .ok rk →
      hitTest (trimL rk) = true →
      (∀ i, i < k → ∀ ci, cl.get? i = some ci →
        ∃ ri, chunkQuery m query ci (base + i) total = .ok ri ∧
          hitTest (trimL ri) = false) →
      searchChunks m query nm total cl base =
        .hit (trimL rk) nm (base + k + 1) total := by
  intro cl
  induction cl with
  | nil => intro k base ck rk hk; simp at hk
  | cons c cs ih =>
    intro k base ck rk hk hq hht hkmiss
    cases k with
    | zero =>
      rw [List.get?_cons_zero, Option.some.injEq] at hk
      subst hk
      exact searchChunks_cons_hit _ _ _ _ _ _ _ _ hq hht
    | succ k2 =>
      obtain ⟨r0, hq0, hh0⟩ := hkmiss 0 (Nat.succ_pos k2) c List.get?_cons_zero
      rw [List.get?_cons_succ] at hk
      rw [searchChunks_cons_miss m query nm total base c cs r0 hq0 hh0]
      have harith : base + 1 + k2 = base + (k2 + 1) := by omega
      have hq2 : chunkQuery m query ck (base + 1 + k2) total = .ok rk := by
        rw [harith]; exact hq
      have hkmiss2 : ∀ i, i < k2 → ∀ ci, cs.get? i = some ci →
          ∃ ri, chunkQuery m query ci (base + 1 + i) total = .ok ri ∧
            hitTest (trimL ri) = false := by
        intro i hi ci hci
        have h2 := hkmiss (i + 1) (by omega) ci (by rwa [List.get?_cons_succ])
        obtain ⟨ri, h3, h4⟩ := h2
        exact ⟨ri, by rw [show base + 1 + i = base + (i + 1) by omega]; exact h3, h4⟩
      rw [ih k2 (base + 1) ck rk hk hq2 hht hkmiss2]
      rw [harith]

theorem rankFiles_length (files : List PdfFile) (query : List Char) :
    (rankFiles files query).length = files.length := by
  unfold rankFiles
  rw [List.length_map, (sortDesc_perm _).length_eq, List.length_map]

theorem searchAllPdfs_model (w : World) (m : ModelFn) (query : List Char)
    (hm : w.model = some m) (hne : ¬ findAllPdfs w = []) :
    searchAllPdfs w query =
      searchLoop m query (findAllPdfs w).length
        (rankFiles (findAllPdfs w) query) 0 [] := by
  unfold searchAllPdfs
  rw [hm]
  simp only [if_neg hne]

theorem searchSinglePdf_ok (m : ModelFn) (query : List Char) (f : PdfFile)
    (txt : List Char) (h : f.content = .ok txt) :
    searchSinglePdf m query f =
      searchChunks m query f.name (splitTextIntoChunks txt 50000 5000).length
        (splitTextIntoChunks txt 50000 5000) 0 := by
  unfold searchSinglePdf
  rw [h]

/-- C1: with the model configured, `search_all_pdfs` examines candidates
strictly in ranked order; if the first `j` ranked files yield no hit and
file `j`'s chunk `k` is the first whose model response is not the sentinel
and is longer than 20 characters, the search returns immediately with that
(stripped) response text, the file name, the 1-based chunk index `k + 1`
and total chunk count, and `j + 1` files examined; the trace of file names
read and queried is exactly the first `j + 1` ranked names — later files
are never read or queried. -/
theorem claim_C1_early_stopping (w : World) (query : List Char) (m : ModelFn)
    (j k : Nat) (fj : PdfFile) (txt ck rk : List Char)
    (hm : w.model = some m)
    (hj : (rankFiles (findAllPdfs w) query).get? j = some fj)
    (hmiss : ∀ i, i < j → ∀ fi,
      (rankFiles (findAllPdfs w) query).get? i = some fi →
      isHitResult (searchSinglePdf m query fi) = false)
    (hok : fj.content = .ok txt)
    (hk : (splitTextIntoChunks txt 50000 5000).get? k = some ck)
    (hq : chunkQuery m query ck k (splitTextIntoChunks txt 50000 5000).length = .ok rk)
    (hht : hitTest (trimL rk) = true)
    (hkmiss : ∀ i, i < k → ∀ ci,
      (splitTextIntoChunks txt 50000 5000).get? i = some ci →
      ∃ ri, chunkQuery m query ci i (splitTextIntoChunks txt 50000 5000).length
          = .ok ri ∧ hitTest (trimL ri) = false) :
    searchAllPdfs w query =
      (.found (trimL rk) fj.name (k + 1)
        (splitTextIntoChunks txt 50000 5000).length (j + 1)
        (findAllPdfs w).length,
       ((rankFiles (findAllPdfs w) query).take (j + 1)).map (fun f => f.name)) := by
  have hsingle : searchSinglePdf m query fj =
      .hit (trimL rk) fj.name (k + 1)
        (splitTextIntoChunks txt 50000 5000).length := by
    rw [searchSinglePdf_ok m query fj txt hok]
    have h2 := searchChunks_hit m query fj.name
      (splitTextIntoChunks txt 50000 5000).length
      (splitTextIntoChunks txt 50000 5000) k 0 ck rk hk
      (by rw [Nat.zero_add]; exact hq) hht
      (by
        intro i hi ci hci
        obtain ⟨ri, h3, h4⟩ := hkmiss i hi ci hci
        exact ⟨ri, by rw [Nat.zero_add]; exact h3, h4⟩)
    rw [h2, Nat.zero_add]
  have hne : ¬ findAllPdfs w = [] := by
    intro hempty
    rw [hempty] at hj
    rw [show rankFiles [] query = [] from rfl] at hj
    simp at hj
  rw [searchAllPdfs_model w m query hm hne]
  rw [searchLoop_found m query (findAllPdfs w).length
    (rankFiles (findAllPdfs w) query) j fj (trimL rk) fj.name (k + 1)
    (splitTextIntoChunks txt 50000 5000).length 0 [] hj hsingle hmiss]
  simp

set_option maxRecDepth 40000 in
/-- Witness for C1: three ranked candidates `a.pdf`, `b.pdf`, `c.pdf`
where only `b.pdf`'s single chunk draws a qualifying model response; the
search returns the hit from `b.pdf` with `pdfs_searched = 2` of 3, and the
trace shows `c.pdf` was never read or queried. -/
theorem claim_C1_witness :
    searchAllPdfs worldC1 "q".toList =
      (.found (trimL ansHit) "b.pdf".toList 1 1 2 3,
       ["a.pdf".toList, "b.pdf".toList]) ∧
    "c.pdf".toList ∉ (searchAllPdfs worldC1 "q".toList).2 := by
  constructor
  · have h := claim_C1_early_stopping worldC1 "q".toList modelC1 1 0
      ⟨"b.pdf".toList, .ok "xb".toList⟩ "xb".toList "xb".toList ansHit
      rfl (by decide)
      (by
        intro i hi fi hfi
        have hi0 : i = 0 := by omega
        subst hi0
        have h0 : (rankFiles (findAllPdfs worldC1) "q".toList).get? 0 =
            some ⟨"a.pdf".toList, .ok "xa".toList⟩ := by decide
        rw [h0, Option.some.injEq] at hfi
        subst hfi
        decide)
      (by decide) (by decide) (by decide) (by decide)
      (by intro i hi; omega)
    rw [h]
    decide
  · decide

/-- C6: with the model configured, a missing uploads directory or one
with no `.pdf`-named entry (case-insensitive) makes `search_all_pdfs`
return the `no documents` failure outcome as a value (no exception), with
an empty trace: no file is read and no model call is made. -/
theorem claim_C6_empty_corpus (w : World) (query : List Char) (m : ModelFn)
    (hm : w.model = some m)
    (hdir : w.dir = none ∨ ∃ es, w.dir = some es ∧
      ∀ f ∈ es, endsWithL (lowerL f.name) ".pdf".toList = false) :
    searchAllPdfs w query = (.noPdfs msgNoPdfs, []) := by
  have hempty : findAllPdfs w = [] := by
    rcases hdir with h | ⟨es, h1, h2⟩
    · unfold findAllPdfs
      rw [h]
    · unfold findAllPdfs
      rw [h1]
      apply List.filter_eq_nil.mpr
      intro a ha
      rw [h2 a ha]
      simp
  unfold searchAllPdfs
  rw [hm]
  simp [hempty]

/-- Witness for C6: a world whose uploads directory does not exist. -/
theorem claim_C6_witness :
    searchAllPdfs worldC6 "q".toList = (.noPdfs msgNoPdfs, []) :=
  claim_C6_empty_corpus worldC6 "q".toList modelNoInfo rfl (Or.inl rfl)

/-- C7 (amended): a failed extraction never aborts the search or escapes
as an exception — the loop continues to the next candidate — and when all
candidates are exhausted without a hit the returned outcome has found
false, files-examined = files-total = the corpus size, and the list of
searched file names; the per-candidate error strings are only logged, not
returned. -/
theorem claim_C7_errors_skip_and_exhaust (w : World) (query : List Char)
    (m : ModelFn) (hm : w.model = some m) (hne : ¬ findAllPdfs w = [])
    (hmiss : ∀ fi ∈ rankFiles (findAllPdfs w) query,
      isHitResult (searchSinglePdf m query fi) = false) :
    searchAllPdfs w query =
      (.exhausted query msgNoRelevant (findAllPdfs w).length
        (findAllPdfs w).length
        ((rankFiles (findAllPdfs w) query).map fun f => f.name),
       (rankFiles (findAllPdfs w) query).map fun f => f.name) := by
  rw [searchAllPdfs_model w m query hm hne]
  rw [searchLoop_exhaust m query (findAllPdfs w).length
    (rankFiles (findAllPdfs w) query) 0 [] hmiss]
  rw [rankFiles_length]
  simp

/-- C7 counterexample: in a 2-file corpus whose first file fails to read
with the recorded error string `boom`, the exhausted outcome carries the
query, the fixed `no relevant information` error, both counts and the two
searched names — and the recorded error string appears in none of these
components: the returned dict has no `errorsEncountered` sequence. -/
theorem claim_C7_counterexample :
    searchAllPdfs worldC7 "q".toList =
      (.exhausted "q".toList msgNoRelevant 2 2
        ["a.pdf".toList, "b.pdf".toList],
       ["a.pdf".toList, "b.pdf".toList]) ∧
    "boom".toList ∉ ["a.pdf".toList, "b.pdf".toList] ∧
    ¬ msgNoRelevant = "boom".toList ∧ ¬ "q".toList = "boom".toList := by
  refine ⟨by decide, by decide, by decide, by decide⟩

set_option maxRecDepth 40000 in
/-- Witness for C7 (amended): the 2-file corpus with a failing first file
is searched to exhaustion, both files appearing in the searched names. -/
theorem claim_C7_witness :
    searchAllPdfs worldC7 "q".toList =
      (.exhausted "q".toList msgNoRelevant 2 2
        ["a.pdf".toList, "b.pdf".toList],
       ["a.pdf".toList, "b.pdf".toList]) := by
  have h := claim_C7_errors_skip_and_exhaust worldC7 "q".toList modelNoInfo rfl
    (by decide)
    (by
      intro fi hfi
      have h2 : rankFiles (findAllPdfs worldC7) "q".toList = filesC7 := by decide
      rw [h2] at hfi
      rcases List.mem_cons.mp hfi with h3 | h3
      · subst h3; decide
      · rcases List.mem_cons.mp h3 with h4 | h4
        · subst h4; decide
        · simp at h4)
  rw [h]
  decide

theorem trimL_eq_nil (l : List Char) (h : trimL l = []) :
    ∀ c ∈ l, isPySpace c = true := by
  unfold trimL at h
  rw [List.reverse_eq_nil_iff, List.dropWhile_eq_nil_iff] at h
  intro c hc
  have hsplit := List.takeWhile_append_dropWhile isPySpace l
  rw [← hsplit] at hc
  rcases List.mem_append.mp hc with h2 | h2
  · exact List.mem_takeWhile_imp h2
  · exact h c (List.mem_reverse.mpr h2)

theorem toLower_space (c : Char) (h : isPySpace c = true) :
    Char.toLower c = c := by
  unfold isPySpace at h
  simp only [Bool.or_eq_true, decide_eq_true_eq] at h
  have h2 : ¬ (c.toNat ≥ 65 ∧ c.toNat ≤ 90) := by omega
  simp only [Char.toLower]
  rw [if_neg h2]

theorem lowerL_of_spaces (l : List Char) (h : ∀ c ∈ l, isPySpace c = true) :
    lowerL l = l := by
  unfold lowerL
  induction l with
  | nil => rfl
  | cons c cs ih =>
    rw [List.map_cons, toLower_space c (h c (List.mem_cons_self c cs)),
      ih fun x hx => h x (List.mem_cons_of_mem c hx)]

theorem classify_of_trim_nil (msg : List Char) (h : trimL msg = []) :
    classify msg = labelUnknown := by
  have hlow : lowerL msg = msg := lowerL_of_spaces msg (trimL_eq_nil msg h)
  unfold classify
  simp only [intentScoresOf]
  rw [hlow, h]
  decide

theorem requiresGemini_classify (msg : List Char)
    (hr : (applyRules (classify msg) msg).requiresGemini = true) :
    classify msg = labelPdfSearch := by
  rcases classify_mem msg with h | h | h | h | h
  · exact h
  · rw [h, applyRules_greeting] at hr
    simp at hr
  · rw [h, applyRules_goodbye] at hr
    simp at hr
  · rw [h, applyRules_help] at hr
    simp at hr
  · rw [h, applyRules_unknown] at hr
    simp at hr

theorem searchAllPdfs_noModel (w : World) (query : List Char)
    (hm : w.model = none) :
    searchAllPdfs w query = (.notConfigured msgNotInitialized, []) := by
  unfold searchAllPdfs
  rw [hm]

/-- C9: when no API key is configured (model `none`, the service object
constructed), every message that routes to a PDF operation produces the
user-visible `Gemini API not initialized` text through
`format_pdf_response` — returned as a value, with an empty trace: no file
is read, no model call attempted. -/
theorem claim_C9_missing_credentials (pick : List (List Char) → List Char)
    (w : World) (msg : List Char) (hm : w.model = none)
    (hr : (applyRules (classify msg) msg).requiresGemini = true) :
    processMessage pick (some w) msg =
      ("❌ Error performing search operation: ".toList ++ msgNotInitialized,
       []) := by
  have hcl : classify msg = labelPdfSearch := requiresGemini_classify msg hr
  have hnt : ¬ trimL msg = [] := by
    intro h2
    rw [classify_of_trim_nil msg h2] at hcl
    exact absurd hcl (by decide)
  unfold processMessage
  rw [if_neg hnt, hcl]
  show (formatPdfResponse (some opSearch) (handlePdfOperation w (some opSearch) msg).1,
      (handlePdfOperation w (some opSearch) msg).2) = _
  unfold handlePdfOperation
  rw [if_pos rfl, searchAllPdfs_noModel w msg hm]
  decide

set_option maxRecDepth 40000 in
/-- Witness for C9: with no model configured, the search-like message
`what is x` yields the `not initialized` text and an empty trace. -/
theorem claim_C9_witness :
    processMessage (fun _ => []) (some worldC9) "what is x".toList =
      ("❌ Error performing search operation: ".toList ++ msgNotInitialized,
       []) :=
  claim_C9_missing_credentials (fun _ => []) worldC9 "what is x".toList rfl
    (by decide)

set_option maxRecDepth 40000 in
/-- Witness for C10: `hello` classifies inside the closed label set, and a
search-like message that requires Gemini carries the `search` operation. -/
theorem claim_C10_witness :
    classify "hello".toList ∈
      [labelPdfSearch, labelGreeting, labelGoodbye, labelHelp, labelUnknown] ∧
    (applyRules (classify "what is x".toList) "what is x".toList).requiresGemini
      = true ∧
    (applyRules (classify "what is x".toList) "what is x".toList).operation
      = some opSearch :=
  ⟨(claim_C10_closed_label_set "hello".toList).1, by decide,
   (claim_C10_closed_label_set "what is x".toList).2.2 (by decide)⟩
